import Mathlib

/-!
Verification of the brother_pt label-printer driver.

Shallow embedding of the Python sources (brother_pt/cmd.py, printer.py,
raster.py, __main__.py) into Lean.  Byte strings are modelled as `List Nat`
(each element a byte value), Python exceptions as an explicit error type,
and the blocking read loops as functions of the finite sequence of replies
the transport produces.
-/

/-! ## Constants (cmd.py lines 19-34) -/

def PRINT_HEAD_PINS : Nat := 128

def LINE_LENGTH_BYTES : Nat := 16

def MINIMUM_TAPE_POINTS : Nat := 174

def STATUS_MESSAGE_LENGTH : Nat := 32

/-! ## Little-endian byte encoding

`toLEDigits n k` is the digit list of Python's `n.to_bytes(k, 'little')`;
`toBytesLE` additionally models the `OverflowError` raised when the value
does not fit (`none`).  `fromLE` is the little-endian value of a byte list,
used to state what an emitted length field denotes. -/

def toLEDigits : Nat → Nat → List Nat
  | _, 0 => []
  | n, k + 1 => n % 256 :: toLEDigits (n / 256) k

def toBytesLE (n k : Nat) : Option (List Nat) :=
  if n < 256 ^ k then some (toLEDigits n k) else none

def fromLE : List Nat → Nat
  | [] => 0
  | b :: rest => b + 256 * fromLE rest

/-! ## Tape margin table (cmd.py lines 53-65)

`MediaWidthToTapeMargin.margin` is a Python dict; looking up a key that is
absent raises `KeyError`, modelled by `none`. -/

def margin : Nat → Option Nat
  | 4 => some 52
  | 6 => some 48
  | 9 => some 39
  | 12 => some 29
  | 18 => some 8
  | 24 => some 0
  | _ => none

def to_print_width (tape_width : Nat) : Option Nat :=
  (margin tape_width).map (fun m => PRINT_HEAD_PINS - m * 2)

/-! ## Enumerations used by update_status (cmd.py lines 81-167) -/

def MediaTypeValues : List Nat := [0x00, 0x01, 0x03, 0x11, 0xFF]

def TapeColorValues : List Nat :=
  [0x01, 0x02, 0x03, 0x04, 0x05, 0x06, 0x07, 0x08, 0x09,
   0x20, 0x21, 0x22, 0x23, 0x24, 0x30, 0x31, 0x40, 0x41,
   0x50, 0x51, 0x52, 0x60, 0x61, 0x62, 0x70, 0x90, 0x91,
   0xF0, 0xF1, 0xFF]

def TextColorValues : List Nat :=
  [0x01, 0x02, 0x04, 0x05, 0x08, 0x0A, 0x62, 0xF0, 0xF1, 0xFF]

/-! ## Command builders (cmd.py lines 170-244) -/

def invalidate : List Nat := List.replicate 100 0

def initialize_cmd : List Nat := [0x1B, 0x40]

def enter_dynamic_command_mode : List Nat := [0x1B, 0x69, 0x61, 0x01]

def enable_status_notification : List Nat := [0x1B, 0x69, 0x21, 0x00]

def print_information (data : List Nat) : Option (List Nat) :=
  (toBytesLE (data.length >>> 4) 4).map
    (fun cnt => [0x1B, 0x69, 0x7A, 0x84, 0x00, 0x18, 0x00] ++ cnt ++ [0x00, 0x00])

def set_mode (mode : Nat) : Option (List Nat) :=
  (toBytesLE mode 1).map (fun b => [0x1B, 0x69, 0x4D] ++ b)

def set_advanced_mode : List Nat := [0x1B, 0x69, 0x4B, 0x08]

def margin_amount (dots : Nat) : Option (List Nat) :=
  (toBytesLE dots 2).map (fun b => [0x1B, 0x69, 0x64] ++ b)

def set_compression_mode : List Nat := [0x4D, 0x02]

def print_with_feeding : List Nat := [0x1A]

def status_information_request : List Nat := [0x1B, 0x69, 0x53]

/-! ## PackBits compression

Modelled from the spec: cmd.py calls `packbits.encode` from the external
`packbits` library, which is not part of this repository's sources.  The
spec describes it as byte-oriented run-length (PackBits-style) compression:
a header byte `n <= 127` introduces `n+1` literal bytes, a header byte
`n >= 129` (two's complement -1 .. -127) introduces a byte repeated
`257 - n` times, and header `128` is a no-op.  Maximal runs of two or more
equal bytes become repeat packets, isolated bytes are grouped into literal
packets, and a packet covers at most 127 input bytes. -/

def leadRun (x : Nat) : List Nat → Nat
  | [] => 0
  | y :: ys => if y = x then leadRun x ys + 1 else 0

def litLen : List Nat → Nat
  | [] => 0
  | [_] => 1
  | x :: y :: ys => if x = y then 0 else 1 + litLen (y :: ys)

def runPacketLen (x : Nat) (xs : List Nat) : Nat := min (leadRun x xs + 1) 127

def litPacketLen (l : List Nat) : Nat := min (litLen l) 127

def pbEncodeF : Nat → List Nat → List Nat
  | _, [] => []
  | 0, _ :: _ => []
  | f + 1, x :: xs =>
    if 1 ≤ leadRun x xs then
      (257 - runPacketLen x xs) :: x :: pbEncodeF f (xs.drop (runPacketLen x xs - 1))
    else
      (litPacketLen (x :: xs) - 1) ::
        ((x :: xs).take (litPacketLen (x :: xs)) ++ pbEncodeF f ((x :: xs).drop (litPacketLen (x :: xs))))

def pbEncode (l : List Nat) : List Nat := pbEncodeF l.length l

def pbDecodeF : Nat → List Nat → List Nat
  | _, [] => []
  | 0, _ :: _ => []
  | f + 1, h :: rest =>
    if h ≤ 127 then
      rest.take (h + 1) ++ pbDecodeF f (rest.drop (h + 1))
    else if h = 128 then
      pbDecodeF f rest
    else
      match rest with
      | [] => []
      | b :: rs => List.replicate (257 - h) b ++ pbDecodeF f rs

def pbDecode (l : List Nat) : List Nat := pbDecodeF l.length l

/-! ## Raster command generation (cmd.py lines 217-234)

The image is consumed in 16-byte chunks; an all-zero chunk becomes the
one-byte blank-line marker 0x5A, any other chunk becomes 0x47, a 2-byte
little-endian length, and the PackBits-compressed chunk.  A chunk is at
most 16 bytes, so the compressed payload is at most 32 bytes and Python's
`to_bytes(2, "little")` never overflows; the digits are emitted directly. -/

def raster_line_cmd (line : List Nat) : List Nat :=
  if line = List.replicate 16 0 then [0x5A]
  else 0x47 :: (toLEDigits (pbEncode line).length 2 ++ pbEncode line)

def gen_raster_commandsF : Nat → List Nat → List (List Nat)
  | _, [] => []
  | 0, _ :: _ => []
  | f + 1, l => raster_line_cmd (l.take 16) :: gen_raster_commandsF f (l.drop 16)

def gen_raster_commands (rasterized_image : List Nat) : List (List Nat) :=
  gen_raster_commandsF rasterized_image.length rasterized_image

/-! ## Status parsing and the printer session (printer.py) -/

inductive PyError where
  | indexError : PyError
  | valueError : PyError
  | keyError : PyError
  | overflowError : PyError
deriving DecidableEq

structure StatusFields where
  media_width : Nat
  media_type : Nat
  tape_color : Nat
  text_color : Nat
deriving DecidableEq

def pyIndex (l : List Nat) (i : Nat) : Except PyError Nat :=
  if h : i < l.length then .ok l[i] else .error .indexError

def pyEnum (values : List Nat) (b : Nat) : Except PyError Nat :=
  if b ∈ values then .ok b else .error .valueError

/-- Field extraction of `BrotherPt.update_status` (printer.py lines 87-90):
the media-width byte at offset 10 is stored raw, the media-type, tape-color
and text-color bytes are passed through their `IntEnum` constructors, which
raise `ValueError` on a value outside the enumeration.  There is no check
of the buffer length. -/
def parseStatusFields (buf : List Nat) : Except PyError StatusFields := do
  let mw ← pyIndex buf 10
  let mtb ← pyIndex buf 11
  let mt ← pyEnum MediaTypeValues mtb
  let tcb ← pyIndex buf 24
  let tc ← pyEnum TapeColorValues tcb
  let xcb ← pyIndex buf 25
  let xc ← pyEnum TextColorValues xcb
  return ⟨mw, mt, tc, xc⟩

/-- The read loop of `update_status` (printer.py lines 82-85): re-issue the
status request while the transport returns an empty buffer.  `reads` is the
finite sequence of replies the transport produces; `none` means the loop
has consumed them all and is still spinning (it has neither terminated nor
raised any error). -/
def statusLoop : List (List Nat) → Option (List Nat)
  | [] => none
  | r :: rs => if r = [] then statusLoop rs else some r

inductive PollResult where
  | running : PollResult
  | completed : Option (List Nat) → PollResult
  | err : PyError → PollResult
deriving DecidableEq

/-- The completion-poll loop of `print_data` (printer.py lines 119-125):
read forever; a non-empty reply whose byte 18 (STATUS_TYPE) equals
PRINTING_COMPLETED = 0x01 triggers one absorbing read and exits the loop;
every other reply is discarded and the loop continues. -/
def pollLoop : List (List Nat) → PollResult
  | [] => .running
  | r :: rs =>
    if r = [] then pollLoop rs
    else if h : 18 < r.length then
      if r[18] = 1 then .completed rs.head? else pollLoop rs
    else .err .indexError

/-- Write sequence of `BrotherPt.print_data` (printer.py lines 108-118):
the setup commands in their fixed order, the raster commands for the data,
then print_with_feeding.  No field of the device status is consulted. -/
def print_data_writes (data : List Nat) (margin_px : Nat) : Option (List (List Nat)) :=
  match print_information data, set_mode 0x40, margin_amount margin_px with
  | some pi, some sm, some ma =>
    some ([enter_dynamic_command_mode, enable_status_notification, pi, sm,
           set_advanced_mode, ma, set_compression_mode]
          ++ gen_raster_commands data ++ [print_with_feeding])
  | _, _, _ => none

/-- A print session (printer.py lines 108-134): parse the status reply the
device produced, then write the full print_data sequence.  `data` stands
for the already-rasterized bytes handed to print_data. -/
def print_session (statusBuf data : List Nat) (margin_px : Nat) :
    Except PyError (StatusFields × List (List Nat)) :=
  match parseStatusFields statusBuf with
  | .error e => .error e
  | .ok st =>
    match print_data_writes data margin_px with
    | none => .error .overflowError
    | some ws => .ok (st, ws)

/-- Models `BrotherPt.print_image` (printer.py lines 127-134): when
image.width + margin_px < MINIMUM_TAPE_POINTS it only emits a warning; the
requested margin_px is passed to print_data unchanged. -/
def print_image_writes (data : List Nat) (margin_px : Nat) : Option (List (List Nat)) :=
  print_data_writes data margin_px

/-- Margin computation of `do_print` (__main__.py lines 74-78): when
image.width + margin < MINIMUM_TAPE_POINTS the margin is replaced by
MINIMUM_TAPE_POINTS - image.width. -/
def doPrintMargin (w m : Nat) : Nat :=
  if w + m < MINIMUM_TAPE_POINTS then MINIMUM_TAPE_POINTS - w else m

/-- Write sequence of `do_print` (__main__.py lines 73-83): the normalized
margin is handed to print_data together with the rasterized data of an
image of width `w`. -/
def do_print_session (w m : Nat) (data : List Nat) : Option (List (List Nat)) :=
  print_data_writes data (doPrintMargin w m)

/-! ## Image fitting (raster.py lines 21-28) -/

structure PtImage where
  width : Nat
  height : Nat
deriving DecidableEq

/-- `make_fit` (raster.py lines 21-28): look up the printable height for
the tape width (a dict access, KeyError when the width is unsupported);
accept the image when its height matches, transpose it when only its width
matches (`Image.transpose(ROTATE_90)` swaps the dimensions), return None
otherwise. -/
def make_fit (image : PtImage) (media_width : Nat) : Except PyError (Option PtImage) :=
  match to_print_width media_width with
  | none => .error .keyError
  | some expected =>
    if image.height ≠ expected then
      if image.width ≠ expected then .ok none
      else .ok (some ⟨image.height, image.width⟩)
    else .ok (some image)

/-! ## Helper lemmas -/

lemma pbEncodeF_nil (f : Nat) : pbEncodeF f [] = [] := by cases f <;> rfl

lemma pbDecodeF_nil (f : Nat) : pbDecodeF f [] = [] := by cases f <;> rfl

lemma leadRun_le_length (x : Nat) : ∀ xs : List Nat, leadRun x xs ≤ xs.length := by
  intro xs
  induction xs with
  | nil => simp [leadRun]
  | cons y ys ih =>
    simp only [leadRun, List.length_cons]
    split <;> omega

lemma take_leadRun (x : Nat) : ∀ (xs : List Nat) (k : Nat), k ≤ leadRun x xs →
    xs.take k = List.replicate k x := by
  intro xs
  induction xs with
  | nil =>
    intro k hk
    simp only [leadRun, Nat.le_zero] at hk
    simp [hk]
  | cons y ys ih =>
    intro k hk
    cases k with
    | zero => simp
    | succ j =>
      simp only [leadRun] at hk
      by_cases hy : y = x
      · rw [if_pos hy] at hk
        have hj : j ≤ leadRun x ys := by omega
        simp [List.take_succ_cons, ih j hj, hy, List.replicate_succ]
      · rw [if_neg hy] at hk
        omega

lemma litLen_le_length : ∀ l : List Nat, litLen l ≤ l.length := by
  intro l
  induction l with
  | nil => simp [litLen]
  | cons x xs ih =>
    cases xs with
    | nil => simp [litLen]
    | cons y ys =>
      simp only [litLen, List.length_cons] at ih ⊢
      split <;> omega

lemma litLen_pos (x : Nat) (xs : List Nat) (h : leadRun x xs = 0) :
    1 ≤ litLen (x :: xs) := by
  cases xs with
  | nil => simp [litLen]
  | cons y ys =>
    simp only [leadRun] at h
    by_cases hy : y = x
    · rw [if_pos hy] at h
      omega
    · simp only [litLen]
      rw [if_neg (fun hxy => hy hxy.symm)]
      omega

lemma pbDecodeF_fuel_irrel : ∀ f₁ f₂ l, l.length ≤ f₁ → l.length ≤ f₂ →
    pbDecodeF f₁ l = pbDecodeF f₂ l := by
  intro f₁
  induction f₁ with
  | zero =>
    intro f₂ l h1 _
    have : l = [] := List.eq_nil_of_length_eq_zero (Nat.le_zero.mp h1)
    subst this
    simp [pbDecodeF_nil]
  | succ f ih =>
    intro f₂ l h1 h2
    cases l with
    | nil => simp [pbDecodeF_nil]
    | cons a rest =>
      cases f₂ with
      | zero => simp at h2
      | succ g =>
        simp only [List.length_cons] at h1 h2
        simp only [pbDecodeF]
        by_cases ha : a ≤ 127
        · rw [if_pos ha, if_pos ha]
          have := ih g (rest.drop (a + 1)) (by simp [List.length_drop]; omega)
            (by simp [List.length_drop]; omega)
          rw [this]
        · rw [if_neg ha, if_neg ha]
          by_cases h128 : a = 128
          · rw [if_pos h128, if_pos h128]
            exact ih g rest (by omega) (by omega)
          · rw [if_neg h128, if_neg h128]
            cases rest with
            | nil => rfl
            | cons b rs =>
              simp only [List.length_cons] at h1 h2
              have := ih g rs (by omega) (by omega)
              simp only [this]

lemma pbDecode_rle (k b : Nat) (rest : List Nat) (hk2 : 2 ≤ k) (hk7 : k ≤ 127) :
    pbDecode ((257 - k) :: b :: rest) = List.replicate k b ++ pbDecode rest := by
  simp only [pbDecode, List.length_cons]
  rw [pbDecodeF]
  have hle : ¬ (257 - k ≤ 127) := by omega
  have h128 : ¬ (257 - k = 128) := by omega
  rw [if_neg hle, if_neg h128]
  have hkk : 257 - (257 - k) = k := by omega
  simp only [hkk]
  congr 1
  exact pbDecodeF_fuel_irrel (rest.length + 1) rest.length rest (by omega) le_rfl

lemma pbDecode_lit (lits rest : List Nat) (h1 : 1 ≤ lits.length) (h7 : lits.length ≤ 127) :
    pbDecode ((lits.length - 1) :: (lits ++ rest)) = lits ++ pbDecode rest := by
  cases lits with
  | nil => simp at h1
  | cons a lt =>
    simp only [List.length_cons] at h7
    simp only [pbDecode, List.length_cons, List.cons_append, List.length_append,
      Nat.add_sub_cancel]
    rw [pbDecodeF]
    have hle : lt.length ≤ 127 := by omega
    rw [if_pos hle]
    rw [List.take_succ_cons, List.drop_succ_cons, List.take_left, List.drop_left]
    rw [pbDecodeF_fuel_irrel (lt.length + rest.length + 1) rest.length rest
      (by omega) le_rfl]
    rfl

lemma pb_roundtrip_aux : ∀ f l, l.length ≤ f → pbDecode (pbEncodeF f l) = l := by
  intro f
  induction f with
  | zero =>
    intro l h
    have : l = [] := List.eq_nil_of_length_eq_zero (Nat.le_zero.mp h)
    subst this
    rfl
  | succ f ih =>
    intro l h
    cases l with
    | nil => simp [pbEncodeF_nil]; rfl
    | cons x xs =>
      simp only [List.length_cons] at h
      by_cases hrun : 1 ≤ leadRun x xs
      · rw [show pbEncodeF (f + 1) (x :: xs) =
            (257 - runPacketLen x xs) :: x ::
              pbEncodeF f (xs.drop (runPacketLen x xs - 1)) from by
          simp [pbEncodeF, hrun]]
        have hk2 : 2 ≤ runPacketLen x xs := by unfold runPacketLen; omega
        have hk7 : runPacketLen x xs ≤ 127 := by unfold runPacketLen; omega
        rw [pbDecode_rle _ x _ hk2 hk7]
        rw [ih _ (by simp [List.length_drop]; omega)]
        have hkr : runPacketLen x xs - 1 ≤ leadRun x xs := by unfold runPacketLen; omega
        have htake : xs.take (runPacketLen x xs - 1) =
            List.replicate (runPacketLen x xs - 1) x := take_leadRun x xs _ hkr
        rw [show runPacketLen x xs = (runPacketLen x xs - 1) + 1 from by omega,
            List.replicate_succ]
        simp only [Nat.add_sub_cancel, List.cons_append, List.cons.injEq, true_and]
        rw [← htake, List.take_append_drop]
      · have h0 : leadRun x xs = 0 := by omega
        rw [show pbEncodeF (f + 1) (x :: xs) =
            (litPacketLen (x :: xs) - 1) ::
              ((x :: xs).take (litPacketLen (x :: xs)) ++
                pbEncodeF f ((x :: xs).drop (litPacketLen (x :: xs)))) from by
          simp [pbEncodeF, hrun]]
        have hm1 : 1 ≤ litPacketLen (x :: xs) := by
          have := litLen_pos x xs h0
          unfold litPacketLen
          omega
        have hmle : litPacketLen (x :: xs) ≤ xs.length + 1 := by
          have h' := litLen_le_length (x :: xs)
          simp only [List.length_cons] at h'
          unfold litPacketLen
          omega
        have h127 : litPacketLen (x :: xs) ≤ 127 := by unfold litPacketLen; omega
        have hlen : ((x :: xs).take (litPacketLen (x :: xs))).length =
            litPacketLen (x :: xs) := by
          simp only [List.length_take, List.length_cons]
          omega
        have hdec := pbDecode_lit ((x :: xs).take (litPacketLen (x :: xs)))
          (pbEncodeF f ((x :: xs).drop (litPacketLen (x :: xs))))
          (by rw [hlen]; exact hm1) (by rw [hlen]; exact h127)
        rw [hlen] at hdec
        rw [hdec]
        rw [ih _ (by simp only [List.length_drop, List.length_cons]; omega)]
        exact List.take_append_drop _ (x :: xs)

lemma pb_roundtrip (l : List Nat) : pbDecode (pbEncode l) = l :=
  pb_roundtrip_aux l.length l le_rfl

lemma pbEncodeF_length_le : ∀ f l, (pbEncodeF f l).length ≤ 2 * l.length := by
  intro f
  induction f with
  | zero =>
    intro l
    cases l <;> simp [pbEncodeF, pbEncodeF_nil]
  | succ f ih =>
    intro l
    cases l with
    | nil => simp [pbEncodeF_nil]
    | cons x xs =>
      by_cases hrun : 1 ≤ leadRun x xs
      · simp only [pbEncodeF, if_pos hrun]
        have := ih (xs.drop (runPacketLen x xs - 1))
        simp only [List.length_drop] at this
        simp only [List.length_cons]
        omega
      · simp only [pbEncodeF, if_neg hrun]
        have h0 : leadRun x xs = 0 := by omega
        have hm1 : 1 ≤ litPacketLen (x :: xs) := by
          have := litLen_pos x xs h0
          unfold litPacketLen
          omega
        have := ih ((x :: xs).drop (litPacketLen (x :: xs)))
        simp only [List.length_drop, List.length_cons] at this
        simp only [List.length_cons, List.length_append, List.length_take]
        omega

lemma pbEncode_length_le (l : List Nat) : (pbEncode l).length ≤ 2 * l.length :=
  pbEncodeF_length_le l.length l

lemma gen_raster_commandsF_fuel_irrel : ∀ f₁ f₂ l, l.length ≤ f₁ → l.length ≤ f₂ →
    gen_raster_commandsF f₁ l = gen_raster_commandsF f₂ l := by
  intro f₁
  induction f₁ with
  | zero =>
    intro f₂ l h1 _
    have : l = [] := List.eq_nil_of_length_eq_zero (Nat.le_zero.mp h1)
    subst this
    cases f₂ <;> rfl
  | succ f ih =>
    intro f₂ l h1 h2
    cases l with
    | nil => cases f₂ <;> rfl
    | cons a l' =>
      cases f₂ with
      | zero => simp at h2
      | succ g =>
        simp only [List.length_cons] at h1 h2
        simp only [gen_raster_commandsF]
        congr 1
        apply ih <;> (simp only [List.length_drop, List.length_cons]; omega)

lemma gen_raster_commands_cons (line rest : List Nat) (h : line.length = 16) :
    gen_raster_commands (line ++ rest) = raster_line_cmd line :: gen_raster_commands rest := by
  cases line with
  | nil => simp at h
  | cons a l' =>
    simp only [List.length_cons] at h
    unfold gen_raster_commands
    simp only [List.cons_append, List.length_cons]
    rw [show gen_raster_commandsF ((l' ++ rest).length + 1) (a :: (l' ++ rest)) =
        raster_line_cmd ((a :: (l' ++ rest)).take 16) ::
          gen_raster_commandsF ((l' ++ rest).length) ((a :: (l' ++ rest)).drop 16) from rfl]
    have h16 : (16 : Nat) = (a :: l').length := by simp [List.length_cons]; omega
    rw [show a :: (l' ++ rest) = (a :: l') ++ rest from rfl, h16,
      List.take_left, List.drop_left]
    congr 1
    apply gen_raster_commandsF_fuel_irrel <;> simp [List.length_append]

lemma fromLE_toLEDigits_two (n : Nat) (h : n < 65536) :
    fromLE (toLEDigits n 2) = n := by
  have e : toLEDigits n 2 = [n % 256, n / 256 % 256] := rfl
  rw [e]
  simp only [fromLE]
  omega

lemma fromLE_toLEDigits_four (n : Nat) (h : n < 4294967296) :
    fromLE (toLEDigits n 4) = n := by
  have e : toLEDigits n 4 =
      [n % 256, n / 256 % 256, n / 256 / 256 % 256, n / 256 / 256 / 256 % 256] := rfl
  rw [e]
  simp only [fromLE]
  omega

lemma pyIndex_eval (l : List Nat) (i : Nat) (h : i < l.length) :
    pyIndex l i = .ok (l.getD i 0) := by
  unfold pyIndex
  rw [dif_pos h, List.getD_eq_getElem l 0 h]

lemma pyIndex_oob (l : List Nat) (i : Nat) (h : l.length ≤ i) :
    pyIndex l i = .error .indexError := by
  unfold pyIndex
  rw [dif_neg (by omega)]

lemma parseStatusFields_getD (buf : List Nat) (hlen : 26 ≤ buf.length)
    (h1 : buf.getD 11 0 ∈ MediaTypeValues) (h2 : buf.getD 24 0 ∈ TapeColorValues)
    (h3 : buf.getD 25 0 ∈ TextColorValues) :
    parseStatusFields buf =
      .ok ⟨buf.getD 10 0, buf.getD 11 0, buf.getD 24 0, buf.getD 25 0⟩ := by
  unfold parseStatusFields
  rw [pyIndex_eval buf 10 (by omega), pyIndex_eval buf 11 (by omega),
    pyIndex_eval buf 24 (by omega), pyIndex_eval buf 25 (by omega)]
  simp only [Bind.bind, Except.bind, Functor.map, Except.map, pyEnum,
    List.getD] at h1 h2 h3 ⊢
  rw [if_pos h1, if_pos h2, if_pos h3]
  rfl

lemma print_data_writes_eq (data : List Nat) (m : Nat)
    (hd : data.length >>> 4 < 4294967296) (hm : m < 65536) :
    print_data_writes data m =
      some ([enter_dynamic_command_mode, enable_status_notification,
        [0x1B, 0x69, 0x7A, 0x84, 0x00, 0x18, 0x00] ++
          toLEDigits (data.length >>> 4) 4 ++ [0x00, 0x00],
        [0x1B, 0x69, 0x4D, 0x40], set_advanced_mode,
        [0x1B, 0x69, 0x64] ++ toLEDigits m 2, set_compression_mode]
        ++ gen_raster_commands data ++ [print_with_feeding]) := by
  have hpi : print_information data =
      some ([0x1B, 0x69, 0x7A, 0x84, 0x00, 0x18, 0x00] ++
        toLEDigits (data.length >>> 4) 4 ++ [0x00, 0x00]) := by
    unfold print_information toBytesLE
    rw [if_pos (show data.length >>> 4 < 256 ^ 4 by
      have h4 : (256 : Nat) ^ 4 = 4294967296 := by norm_num
      omega)]
    rfl
  have hma : margin_amount m = some ([0x1B, 0x69, 0x64] ++ toLEDigits m 2) := by
    unfold margin_amount toBytesLE
    rw [if_pos (show m < 256 ^ 2 by
      have h4 : (256 : Nat) ^ 2 = 65536 := by norm_num
      omega)]
    rfl
  have hsm : set_mode 0x40 = some [0x1B, 0x69, 0x4D, 0x40] := rfl
  unfold print_data_writes
  rw [hpi, hsm, hma]

lemma statusLoop_replicate_nil : ∀ n, statusLoop (List.replicate n []) = none := by
  intro n
  induction n with
  | zero => rfl
  | succ k ih => simp [List.replicate_succ, statusLoop, ih]

lemma pollLoop_replicate_nil : ∀ n, pollLoop (List.replicate n []) = .running := by
  intro n
  induction n with
  | zero => rfl
  | succ k ih => simp [List.replicate_succ, pollLoop, ih]

/-! ## Claims -/

/-- C1: for every supported tape-width category w in {4, 6, 9, 12, 18, 24},
the printable pin count returned by to_print_width plus twice the margin
pin count of the tape-margin table equals the fixed print-head pin count
PRINT_HEAD_PINS = 128. -/
theorem c1_tape_margin_pin_invariant (w : Nat)
    (hw : w ∈ [4, 6, 9, 12, 18, 24]) :
    ∃ p m, to_print_width w = some p ∧ margin w = some m ∧
      p + 2 * m = PRINT_HEAD_PINS := by
  fin_cases hw
  · exact ⟨24, 52, rfl, rfl, rfl⟩
  · exact ⟨32, 48, rfl, rfl, rfl⟩
  · exact ⟨50, 39, rfl, rfl, rfl⟩
  · exact ⟨70, 29, rfl, rfl, rfl⟩
  · exact ⟨112, 8, rfl, rfl, rfl⟩
  · exact ⟨128, 0, rfl, rfl, rfl⟩

theorem c1_witness : 9 ∈ [4, 6, 9, 12, 18, 24] ∧
    ∃ p m, to_print_width 9 = some p ∧ margin 9 = some m ∧
      p + 2 * m = PRINT_HEAD_PINS :=
  ⟨by decide, c1_tape_margin_pin_invariant 9 (by decide)⟩

/-- C2: each 16-byte packed raster line processed by gen_raster_commands
produces, when all bytes are zero, exactly the one-byte blank-line marker
0x5A (never a compressed-data line), and otherwise the raster opcode 0x47
followed by a 2-byte little-endian length and the PackBits payload, the
length field decoding to the byte length of that payload. -/
theorem c2_raster_line_command (line rest : List Nat) (h : line.length = 16) :
    gen_raster_commands (line ++ rest) =
      (if line = List.replicate 16 0 then [0x5A]
       else 0x47 :: (toLEDigits (pbEncode line).length 2 ++ pbEncode line)) ::
        gen_raster_commands rest ∧
    fromLE (toLEDigits (pbEncode line).length 2) = (pbEncode line).length := by
  constructor
  · rw [gen_raster_commands_cons line rest h]
    rfl
  · apply fromLE_toLEDigits_two
    have hb := pbEncode_length_le line
    omega

theorem c2_witness : (List.replicate 16 (1 : Nat)).length = 16 ∧
    (gen_raster_commands (List.replicate 16 (1 : Nat) ++ []) =
      (if List.replicate 16 (1 : Nat) = List.replicate 16 0 then [0x5A]
       else 0x47 :: (toLEDigits (pbEncode (List.replicate 16 (1 : Nat))).length 2 ++
         pbEncode (List.replicate 16 (1 : Nat)))) ::
        gen_raster_commands [] ∧
      fromLE (toLEDigits (pbEncode (List.replicate 16 (1 : Nat))).length 2) =
        (pbEncode (List.replicate 16 (1 : Nat))).length) :=
  ⟨by decide, c2_raster_line_command (List.replicate 16 1) [] (by decide)⟩

/-- C3: for every non-zero 16-byte raster line, PackBits-decoding the
compressed payload that gen_raster_commands emits for that line (the
PackBits encoding of the line) reproduces the original 16 bytes. -/
theorem c3_compress_roundtrip (line : List Nat) (h16 : line.length = 16)
    (hnz : line ≠ List.replicate 16 0) :
    pbDecode (pbEncode line) = line :=
  pb_roundtrip line

theorem c3_witness :
    ([0, 0, 1, 2, 3, 3, 3, 0, 0, 0, 0, 0, 0, 0, 9, 9] : List Nat).length = 16 ∧
    ([0, 0, 1, 2, 3, 3, 3, 0, 0, 0, 0, 0, 0, 0, 9, 9] : List Nat) ≠
      List.replicate 16 0 ∧
    pbDecode (pbEncode [0, 0, 1, 2, 3, 3, 3, 0, 0, 0, 0, 0, 0, 0, 9, 9]) =
      [0, 0, 1, 2, 3, 3, 3, 0, 0, 0, 0, 0, 0, 0, 9, 9] :=
  ⟨by decide, by decide,
    c3_compress_roundtrip [0, 0, 1, 2, 3, 3, 3, 0, 0, 0, 0, 0, 0, 0, 9, 9]
      (by decide) (by decide)⟩

/-- C4 counterexample: the claim says a status buffer whose length is not 32
always fails with ShortRead and no fields are extracted.  In update_status
there is no length check at all: this 26-byte buffer (length 26, not 32)
parses successfully and all four fields are extracted. -/
theorem c4_counterexample :
    ([0, 0, 0, 0, 0, 0, 0, 0, 0, 0, 24, 1, 0, 0, 0, 0, 0, 0, 0, 0, 0, 0, 0, 0,
      1, 8] : List Nat).length = 26 ∧
    (26 : Nat) ≠ 32 ∧
    parseStatusFields
        [0, 0, 0, 0, 0, 0, 0, 0, 0, 0, 24, 1, 0, 0, 0, 0, 0, 0, 0, 0, 0, 0, 0, 0,
          1, 8] =
      .ok ⟨24, 1, 1, 8⟩ :=
  ⟨rfl, by decide, rfl⟩

/-- C4 amended: update_status performs no length-32 check and raises no
ShortRead error; it extracts the fields at offsets 10, 11, 24 and 25 from
any buffer of length at least 26 with known enum bytes, whatever the total
length, while a buffer of length at most 10 fails with IndexError at the
first out-of-range offset. -/
theorem c4_parse_no_length_check :
    (∀ buf : List Nat, 26 ≤ buf.length → buf.getD 11 0 ∈ MediaTypeValues →
      buf.getD 24 0 ∈ TapeColorValues → buf.getD 25 0 ∈ TextColorValues →
      parseStatusFields buf =
        .ok ⟨buf.getD 10 0, buf.getD 11 0, buf.getD 24 0, buf.getD 25 0⟩) ∧
    (∀ buf : List Nat, buf.length ≤ 10 →
      parseStatusFields buf = .error .indexError) := by
  constructor
  · exact parseStatusFields_getD
  · intro buf hlen
    unfold parseStatusFields
    rw [pyIndex_oob buf 10 (by omega)]
    rfl

theorem c4_witness :
    ((26 : Nat) ≤
        ([0, 0, 0, 0, 0, 0, 0, 0, 0, 0, 9, 1, 0, 0, 0, 0, 0, 0, 0, 0, 0, 0, 0, 0,
          2, 8, 0] : List Nat).length ∧
      parseStatusFields
          [0, 0, 0, 0, 0, 0, 0, 0, 0, 0, 9, 1, 0, 0, 0, 0, 0, 0, 0, 0, 0, 0, 0, 0,
            2, 8, 0] =
        .ok ⟨9, 1, 2, 8⟩) ∧
    (([1, 2, 3] : List Nat).length ≤ 10 ∧
      parseStatusFields [1, 2, 3] = .error .indexError) :=
  ⟨⟨by decide,
      c4_parse_no_length_check.1
        [0, 0, 0, 0, 0, 0, 0, 0, 0, 0, 9, 1, 0, 0, 0, 0, 0, 0, 0, 0, 0, 0, 0, 0,
          2, 8, 0]
        (by decide) (by decide) (by decide) (by decide)⟩,
    ⟨by decide, c4_parse_no_length_check.2 [1, 2, 3] (by decide)⟩⟩

/-- C5 counterexample: the claim says a decoded media-type byte 0x00 makes
the print operation fail with NoMedia before any raster command is
written.  The code never validates the media type: with this 32-byte
status whose media-type byte (offset 11) is 0x00, the session succeeds and
the write stream contains the raster-data command [0x47, 2, 0, 241, 1] for
the 16-byte line, followed by print_with_feeding. -/
theorem c5_counterexample :
    ([0, 0, 0, 0, 0, 0, 0, 0, 0, 0, 24, 0, 0, 0, 0, 0, 0, 0, 0, 0, 0, 0, 0, 0,
      1, 1, 0, 0, 0, 0, 0, 0] : List Nat).getD 11 0 = 0 ∧
    print_session
        [0, 0, 0, 0, 0, 0, 0, 0, 0, 0, 24, 0, 0, 0, 0, 0, 0, 0, 0, 0, 0, 0, 0, 0,
          1, 1, 0, 0, 0, 0, 0, 0]
        (List.replicate 16 1) 0 =
      .ok (⟨24, 0, 1, 1⟩,
        [[0x1B, 0x69, 0x61, 0x01], [0x1B, 0x69, 0x21, 0x00],
         [0x1B, 0x69, 0x7A, 0x84, 0x00, 0x18, 0x00, 1, 0, 0, 0, 0, 0],
         [0x1B, 0x69, 0x4D, 0x40], [0x1B, 0x69, 0x4B, 0x08],
         [0x1B, 0x69, 0x64, 0, 0], [0x4D, 0x02],
         [0x47, 2, 0, 241, 1], [0x1A]]) :=
  ⟨rfl, rfl⟩

/-- C5 amended: print_data performs no media-type validation at all.
Whenever the status reply parses successfully, including a status whose
media type is 0x00 (no media), the session emits the full setup sequence,
every raster command for the data, and print_with_feeding; no NoMedia
error path exists in the code. -/
theorem c5_no_media_not_checked (buf data : List Nat) (m : Nat)
    (st : StatusFields) (hp : parseStatusFields buf = .ok st)
    (hmt : st.media_type = 0)
    (hd : data.length >>> 4 < 4294967296) (hm : m < 65536) :
    print_session buf data m =
      .ok (st, [enter_dynamic_command_mode, enable_status_notification,
        [0x1B, 0x69, 0x7A, 0x84, 0x00, 0x18, 0x00] ++
          toLEDigits (data.length >>> 4) 4 ++ [0x00, 0x00],
        [0x1B, 0x69, 0x4D, 0x40], set_advanced_mode,
        [0x1B, 0x69, 0x64] ++ toLEDigits m 2, set_compression_mode]
        ++ gen_raster_commands data ++ [print_with_feeding]) := by
  unfold print_session
  rw [hp, print_data_writes_eq data m hd hm]

theorem c5_witness :
    parseStatusFields
        [0, 0, 0, 0, 0, 0, 0, 0, 0, 0, 12, 0, 0, 0, 0, 0, 0, 0, 0, 0, 0, 0, 0, 0,
          1, 8, 0, 0, 0, 0, 0, 0] =
      .ok ⟨12, 0, 1, 8⟩ ∧
    (⟨12, 0, 1, 8⟩ : StatusFields).media_type = 0 ∧
    (List.replicate 32 (0 : Nat)).length >>> 4 < 4294967296 ∧
    (7 : Nat) < 65536 ∧
    print_session
        [0, 0, 0, 0, 0, 0, 0, 0, 0, 0, 12, 0, 0, 0, 0, 0, 0, 0, 0, 0, 0, 0, 0, 0,
          1, 8, 0, 0, 0, 0, 0, 0]
        (List.replicate 32 0) 7 =
      .ok (⟨12, 0, 1, 8⟩, [enter_dynamic_command_mode, enable_status_notification,
        [0x1B, 0x69, 0x7A, 0x84, 0x00, 0x18, 0x00] ++
          toLEDigits ((List.replicate 32 (0 : Nat)).length >>> 4) 4 ++ [0x00, 0x00],
        [0x1B, 0x69, 0x4D, 0x40], set_advanced_mode,
        [0x1B, 0x69, 0x64] ++ toLEDigits 7 2, set_compression_mode]
        ++ gen_raster_commands (List.replicate 32 0) ++ [print_with_feeding]) :=
  ⟨rfl, rfl, by decide, by decide,
    c5_no_media_not_checked _ _ 7 _ rfl rfl (by decide) (by decide)⟩

/-- C6 counterexample: the claim says the print path replaces a margin m
with 174 - w whenever w + m < 174.  The library path print_image only
warns and passes the requested margin through: for a 1-column image
(16 raster bytes) and margin 0 (1 + 0 < 174) it emits margin_amount 0
(the element [0x1B, 0x69, 0x64, 0, 0] at index 5), not margin_amount 173
= [0x1B, 0x69, 0x64] ++ toLEDigits (174 - 1) 2. -/
theorem c6_counterexample :
    1 + 0 < MINIMUM_TAPE_POINTS ∧
    print_image_writes (List.replicate 16 1) 0 =
      some [[0x1B, 0x69, 0x61, 0x01], [0x1B, 0x69, 0x21, 0x00],
        [0x1B, 0x69, 0x7A, 0x84, 0x00, 0x18, 0x00, 1, 0, 0, 0, 0, 0],
        [0x1B, 0x69, 0x4D, 0x40], [0x1B, 0x69, 0x4B, 0x08],
        [0x1B, 0x69, 0x64, 0, 0], [0x4D, 0x02], [0x47, 2, 0, 241, 1], [0x1A]] ∧
    [0x1B, 0x69, 0x64, (0 : Nat), 0] ≠
      [0x1B, 0x69, 0x64] ++ toLEDigits (MINIMUM_TAPE_POINTS - 1) 2 :=
  ⟨by decide, rfl, by decide⟩

/-- C6 amended: only the CLI path do_print normalizes the margin: when
w + m < 174 it uses 174 - w, and the margin_amount command it emits
carries 174 - w while the print_information command it emits encodes the
data line count, which the normalization does not change.  The library
path print_image does not normalize; it passes the requested margin m to
print_data unchanged. -/
theorem c6_margin_normalization (w m : Nat) (data : List Nat)
    (h : w + m < MINIMUM_TAPE_POINTS) (hd : data.length >>> 4 < 4294967296) :
    doPrintMargin w m = MINIMUM_TAPE_POINTS - w ∧
    do_print_session w m data = print_data_writes data (MINIMUM_TAPE_POINTS - w) ∧
    print_image_writes data m = print_data_writes data m ∧
    ∃ ws, do_print_session w m data = some ws ∧
      ws[2]? = some ([0x1B, 0x69, 0x7A, 0x84, 0x00, 0x18, 0x00] ++
        toLEDigits (data.length >>> 4) 4 ++ [0x00, 0x00]) ∧
      ws[5]? = some ([0x1B, 0x69, 0x64] ++
        toLEDigits (MINIMUM_TAPE_POINTS - w) 2) := by
  have hdm : doPrintMargin w m = MINIMUM_TAPE_POINTS - w := by
    unfold doPrintMargin
    rw [if_pos h]
  have hmm : MINIMUM_TAPE_POINTS - w < 65536 := by
    unfold MINIMUM_TAPE_POINTS
    omega
  have hsession : do_print_session w m data =
      print_data_writes data (MINIMUM_TAPE_POINTS - w) := by
    unfold do_print_session
    rw [hdm]
  refine ⟨hdm, hsession, rfl, ?_⟩
  refine ⟨_, hsession.trans (print_data_writes_eq data _ hd hmm), rfl, rfl⟩

theorem c6_witness :
    1 + 0 < MINIMUM_TAPE_POINTS ∧
    (List.replicate 16 (1 : Nat)).length >>> 4 < 4294967296 ∧
    (doPrintMargin 1 0 = MINIMUM_TAPE_POINTS - 1 ∧
      do_print_session 1 0 (List.replicate 16 1) =
        print_data_writes (List.replicate 16 1) (MINIMUM_TAPE_POINTS - 1) ∧
      print_image_writes (List.replicate 16 1) 0 =
        print_data_writes (List.replicate 16 1) 0 ∧
      ∃ ws, do_print_session 1 0 (List.replicate 16 1) = some ws ∧
        ws[2]? = some ([0x1B, 0x69, 0x7A, 0x84, 0x00, 0x18, 0x00] ++
          toLEDigits ((List.replicate 16 (1 : Nat)).length >>> 4) 4 ++ [0x00, 0x00]) ∧
        ws[5]? = some ([0x1B, 0x69, 0x64] ++
          toLEDigits (MINIMUM_TAPE_POINTS - 1) 2)) :=
  ⟨by decide, by decide, c6_margin_normalization 1 0 (List.replicate 16 1)
    (by decide) (by decide)⟩

/-- C7: print_information returns exactly the fixed header 1B 69 7A 84 00
18 00 (0x18 = 24 encodes the 24mm tape category), followed by the raster
line count - the byte length of the data shifted right by 4, that is,
divided by the 16-byte line length - as a 4-byte little-endian integer,
followed by two zero bytes. -/
theorem c7_print_information (data : List Nat)
    (h : data.length / 16 < 4294967296) :
    ∃ cnt, print_information data =
        some ([0x1B, 0x69, 0x7A, 0x84, 0x00, 0x18, 0x00] ++ cnt ++ [0x00, 0x00]) ∧
      cnt.length = 4 ∧ fromLE cnt = data.length / 16 := by
  have hs : data.length >>> 4 = data.length / 16 := by
    rw [Nat.shiftRight_eq_div_pow]
  refine ⟨toLEDigits (data.length >>> 4) 4, ?_, rfl, ?_⟩
  · unfold print_information toBytesLE
    rw [if_pos (show data.length >>> 4 < 256 ^ 4 by
      have h4 : (256 : Nat) ^ 4 = 4294967296 := by norm_num
      omega)]
    rfl
  · rw [hs]
    exact fromLE_toLEDigits_four _ h

theorem c7_witness :
    (List.replicate 48 (0 : Nat)).length / 16 < 4294967296 ∧
    ∃ cnt, print_information (List.replicate 48 0) =
        some ([0x1B, 0x69, 0x7A, 0x84, 0x00, 0x18, 0x00] ++ cnt ++ [0x00, 0x00]) ∧
      cnt.length = 4 ∧ fromLE cnt = (List.replicate 48 (0 : Nat)).length / 16 :=
  ⟨by decide, c7_print_information (List.replicate 48 0) (by decide)⟩

/-- C8: with p the printable pin count of the tape width (128 minus twice
its margin), make_fit accepts an image of height p unrotated, rotates an
image whose height differs from p but whose width equals p (swapping its
dimensions), and yields no fit when neither dimension equals p. -/
theorem c8_make_fit (w p : Nat) (hp : to_print_width w = some p)
    (img : PtImage) :
    (img.height = p → make_fit img w = .ok (some img)) ∧
    (img.height ≠ p → img.width = p →
      make_fit img w = .ok (some ⟨img.height, img.width⟩)) ∧
    (img.height ≠ p → img.width ≠ p → make_fit img w = .ok none) := by
  unfold make_fit
  rw [hp]
  refine ⟨fun h1 => ?_, fun h1 h2 => ?_, fun h1 h2 => ?_⟩
  · simp [h1]
  · simp [h1, h2]
  · simp [h1, h2]

theorem c8_witness : to_print_width 18 = some 112 ∧
    (((⟨300, 112⟩ : PtImage).height = 112 →
        make_fit ⟨300, 112⟩ 18 = .ok (some ⟨300, 112⟩)) ∧
      ((⟨300, 112⟩ : PtImage).height ≠ 112 → (⟨300, 112⟩ : PtImage).width = 112 →
        make_fit ⟨300, 112⟩ 18 = .ok (some ⟨112, 300⟩)) ∧
      ((⟨300, 112⟩ : PtImage).height ≠ 112 → (⟨300, 112⟩ : PtImage).width ≠ 112 →
        make_fit ⟨300, 112⟩ 18 = .ok none)) :=
  ⟨rfl, c8_make_fit 18 112 rfl ⟨300, 112⟩⟩

/-- C9 counterexample: the claim says empty status reads are retried only
up to a bounded attempt count, after which the operation fails with a
Timeout protocol error.  Both loops are unbounded: after 1000 consecutive
empty reads the status loop is still spinning (result none, no error) and
the completion-poll loop is still running, and there is no attempt count
after which an all-empty read sequence leaves the status loop in any state
other than still-spinning. -/
theorem c9_counterexample :
    statusLoop (List.replicate 1000 []) = none ∧
    pollLoop (List.replicate 1000 []) = PollResult.running ∧
    ¬ ∃ N : Nat, statusLoop (List.replicate N []) ≠ none := by
  refine ⟨statusLoop_replicate_nil 1000, pollLoop_replicate_nil 1000, ?_⟩
  rintro ⟨N, hN⟩
  exact hN (statusLoop_replicate_nil N)

/-- C9 amended: the read loops of update_status and of print_data retry
empty reads without any bound and never raise a Timeout: after any number
of empty reads both loops are still spinning, and the status loop
terminates exactly when the transport finally produces a non-empty reply,
returning it. -/
theorem c9_unbounded_retry :
    (∀ n, statusLoop (List.replicate n []) = none) ∧
    (∀ pre r, (∀ x ∈ pre, x = []) → r ≠ [] →
      statusLoop (pre ++ [r]) = some r) ∧
    (∀ n, pollLoop (List.replicate n []) = PollResult.running) := by
  refine ⟨statusLoop_replicate_nil, ?_, pollLoop_replicate_nil⟩
  intro pre
  induction pre with
  | nil =>
    intro r _ hr
    simp [statusLoop, hr]
  | cons a pr ih =>
    intro r h hr
    have ha : a = [] := h a (by simp)
    simp only [List.cons_append, statusLoop, ha, if_pos rfl]
    exact ih r (fun x hx => h x (by simp [hx])) hr

theorem c9_witness :
    statusLoop (List.replicate 5 []) = none ∧
    ((∀ x ∈ ([[], []] : List (List Nat)), x = []) ∧ ([1, 2] : List Nat) ≠ [] ∧
      statusLoop ([[], []] ++ [[1, 2]]) = some [1, 2]) ∧
    pollLoop (List.replicate 5 []) = PollResult.running :=
  ⟨c9_unbounded_retry.1 5,
    ⟨by decide, by decide,
      c9_unbounded_retry.2.1 [[], []] [1, 2] (by decide) (by decide)⟩,
    c9_unbounded_retry.2.2 5⟩

/-- C10: the tape-margin table is defined exactly on {4, 6, 9, 12, 18, 24};
for every other width both the margin lookup and to_print_width fail (the
KeyError case).  update_status stores the device-reported media-width byte
(offset 10) without validating it against this set, so any byte parses,
and make_fit - on the public print path - then hits the failing lookup
whenever the stored width is outside the set. -/
theorem c10_margin_table_domain :
    (∀ w, w ∈ [4, 6, 9, 12, 18, 24] → (margin w).isSome = true) ∧
    (∀ w, w ∉ [4, 6, 9, 12, 18, 24] → margin w = none ∧ to_print_width w = none) ∧
    (∀ buf : List Nat, 26 ≤ buf.length → buf.getD 11 0 ∈ MediaTypeValues →
      buf.getD 24 0 ∈ TapeColorValues → buf.getD 25 0 ∈ TextColorValues →
      parseStatusFields buf =
        .ok ⟨buf.getD 10 0, buf.getD 11 0, buf.getD 24 0, buf.getD 25 0⟩) ∧
    (∀ w img, margin w = none → make_fit img w = .error .keyError) := by
  refine ⟨?_, ?_, parseStatusFields_getD, ?_⟩
  · intro w hw
    fin_cases hw <;> rfl
  · intro w hw
    have hmn : margin w = none := by
      rw [margin.eq_def]
      split <;> simp_all
    exact ⟨hmn, by unfold to_print_width; rw [hmn]; rfl⟩
  · intro w img hmn
    unfold make_fit to_print_width
    rw [hmn]
    rfl

theorem c10_witness :
    ((12 : Nat) ∈ [4, 6, 9, 12, 18, 24] ∧ (margin 12).isSome = true) ∧
    ((5 : Nat) ∉ [4, 6, 9, 12, 18, 24] ∧ margin 5 = none ∧
      to_print_width 5 = none) ∧
    parseStatusFields
        [0, 0, 0, 0, 0, 0, 0, 0, 0, 0, 5, 1, 0, 0, 0, 0, 0, 0, 0, 0, 0, 0, 0, 0,
          1, 8, 0, 0, 0, 0, 0, 0] =
      .ok ⟨5, 1, 1, 8⟩ ∧
    make_fit ⟨10, 10⟩ 5 = .error .keyError :=
  ⟨⟨by decide, c10_margin_table_domain.1 12 (by decide)⟩,
    ⟨by decide, c10_margin_table_domain.2.1 5 (by decide)⟩,
    c10_margin_table_domain.2.2.1
      [0, 0, 0, 0, 0, 0, 0, 0, 0, 0, 5, 1, 0, 0, 0, 0, 0, 0, 0, 0, 0, 0, 0, 0,
        1, 8, 0, 0, 0, 0, 0, 0]
      (by decide) (by decide) (by decide) (by decide),
    c10_margin_table_domain.2.2.2 5 ⟨10, 10⟩ rfl⟩
